import Mathlib

/-!
Order–Invoice payment reconciliation engine: a shallow embedding.

This file embeds, in Lean 4, the payment-reconciliation logic of the
laundry-management backend:

* `src/routes/invoices.js` — the create / update / delete invoice handlers,
  which recompute the parent order's `paid` and `status` and the invoices'
  `remain` fields;
* `src/models/Counter.js` together with the `pre('save')` hooks of
  `src/models/Order.js` and `src/models/Customer.js` — the named sequence
  counter (`findOneAndUpdate` with `$inc` and `upsert`).

Monetary amounts are modelled as rationals (`Rat`); the JavaScript source
uses IEEE numbers, but every claim under study concerns exact decimal
arithmetic on small values, where the two agree.  Mongo documents are
modelled as records in lists; `findById` becomes `List.find?` on the id
field, and saving a loaded document back becomes an id-matching map over
the list.  Fields that the reconciliation arithmetic never reads
(`ncf`, `location`, `itbis`, `discount`, `cash_amount`, `card_amount`,
`bank_tranfer_amount`, `delivery_date`, customer data, order items…) are
omitted: the handlers only pass them through.
-/

/-- Order lifecycle status (`status` enum of `src/models/Order.js`). -/
inductive Status where
  | received
  | completed
  | delivered
deriving DecidableEq, Repr

/-- The fields of an order document that the reconciliation engine reads or
writes (`src/models/Order.js`). -/
structure Order where
  id : Nat
  totalAmount : Rat
  paid : Rat
  status : Status
deriving DecidableEq, Repr

/-- The fields of an invoice document that the reconciliation engine reads or
writes (`src/models/Invoice.js`). -/
structure Invoice where
  id : Nat
  order : Nat
  total : Rat
  paid : Rat
  remain : Rat
deriving DecidableEq, Repr

/-- The persistent store: the orders collection and the invoices collection. -/
structure DB where
  orders : List Order
  invoices : List Invoice
deriving DecidableEq, Repr

/-- Errors surfaced by the three handlers.  `internalError` stands for the
500 produced when the update handler dereferences a missing order document
(`orderDoc.paid = …` throwing on `null`). -/
inductive Err where
  | orderNotFound
  | invoiceNotFound
  | internalError
deriving DecidableEq, Repr

/-- The invoices referencing order `oid`, as in `Invoice.find({ order: oid })`. -/
def invoicesFor (invs : List Invoice) (oid : Nat) : List Invoice :=
  invs.filter (fun inv => inv.order == oid)

/-- Total of the `paid` fields, as in `reduce((sum, inv) => sum + inv.paid, 0)`. -/
def sumPaid (invs : List Invoice) : Rat :=
  (invs.map Invoice.paid).sum

/-- Saving a loaded order document back: replace the entry with that id. -/
def setOrder (orders : List Order) (od : Order) : List Order :=
  orders.map (fun o => if o.id == od.id then od else o)

/-- Saving a loaded invoice document back: replace the entry with that id. -/
def setInvoice (invs : List Invoice) (inv : Invoice) : List Invoice :=
  invs.map (fun i => if i.id == inv.id then inv else i)

/-- The `Order.findById` lookup on the modelled store. -/
def findOrder (db : DB) (oid : Nat) : Option Order :=
  db.orders.find? (fun o => o.id == oid)

/-- The `Invoice.findById` lookup on the modelled store. -/
def findInvoice (db : DB) (invId : Nat) : Option Invoice :=
  db.invoices.find? (fun i => i.id == invId)

/-- The status rule of the update and delete handlers
(`src/routes/invoices.js` lines 384–391 and 455–462): `delivered` when
`paid >= totalAmount`, else `completed` when `paid > 0`, else `received`. -/
def threeTierStatus (paid totalAmount : Rat) : Status :=
  if paid ≥ totalAmount then Status.delivered
  else if paid > 0 then Status.completed
  else Status.received

/-- The status rule of the create handler (`src/routes/invoices.js` lines
69–75): `delivered` when `paid >= totalAmount`; otherwise promote a
`received` order to `completed`, and keep any other status unchanged. -/
def createStatus (paid totalAmount : Rat) (prev : Status) : Status :=
  if paid ≥ totalAmount then Status.delivered
  else if prev = Status.received then Status.completed
  else prev

/-- The success path of the create handler (`router.post('/')`, lines
40–77): sum the `paid` of the existing invoices of the order, set
`order.paid` to that sum plus the new payment, store the new invoice with
`remain = total − order.paid`, and apply the create-path status rule. -/
def createCore (db : DB) (newId oid : Nat) (total paidInput : Rat) (od : Order) :
    DB × Invoice :=
  let totalPaid := sumPaid (invoicesFor db.invoices oid)
  let orderPaid := totalPaid + paidInput
  let invoice : Invoice := ⟨newId, oid, total, paidInput, total - orderPaid⟩
  let od' : Order :=
    { od with paid := orderPaid
              status := createStatus orderPaid od.totalAmount od.status }
  (⟨setOrder db.orders od', db.invoices ++ [invoice]⟩, invoice)

/-- Create an invoice: `router.post('/')` of `src/routes/invoices.js`.
The handler looks the order up (404 if absent) and then runs the success
path.  `newId` models the fresh `_id` Mongo assigns to the new document. -/
def createInvoice (db : DB) (newId oid : Nat) (total paidInput : Rat) :
    Except Err (DB × Invoice) :=
  match db.orders.find? (fun o => o.id == oid) with
  | none => Except.error Err.orderNotFound
  | some od => Except.ok (createCore db newId oid total paidInput od)

/-- The partial field set of a `router.put('/:id')` request body, restricted
to the fields the reconciliation arithmetic reads (`order`, `total`,
`paid`); the other body fields are opaque passthrough. -/
structure UpdateFields where
  order : Option Nat := none
  total : Option Rat := none
  paid : Option Rat := none
deriving DecidableEq, Repr

/-- When `paid` is among the changed fields,
`difference = parseFloat(invoice.paid) − parseFloat(paid)`; `0` otherwise
(lines 359, 367–370). -/
def paidDifference (inv : Invoice) (ch : UpdateFields) : Rat :=
  match ch.paid with
  | some p => inv.paid - p
  | none => 0

/-- Apply the field changes to the loaded invoice document (lines 356,
362–374): `order`, `total` and `paid` are overwritten when present; the
stored `remain` is untouched at this point. -/
def applyChanges (inv : Invoice) (newOrderRef : Nat) (ch : UpdateFields) : Invoice :=
  { inv with
      order := newOrderRef
      total := ch.total.getD inv.total
      paid := ch.paid.getD inv.paid }

/-- The success path of the update handler (lines 359–393): with the field
changes applied, set `order.paid = invoice.total − invoice.remain −
difference` using the invoice's stored `remain`, then `invoice.remain =
invoice.total − order.paid`, and apply the three-tier status rule.  The
order written back is the one loaded by `orderId`, captured (line 348)
before any reassignment of `invoice.order`. -/
def updateCore (db : DB) (inv0 : Invoice) (newOrderRef : Nat) (ch : UpdateFields)
    (od : Order) : DB × Invoice :=
  let difference := paidDifference inv0 ch
  let inv1 := applyChanges inv0 newOrderRef ch
  let orderPaid := inv1.total - inv1.remain - difference
  let inv2 : Invoice := { inv1 with remain := inv1.total - orderPaid }
  let od' : Order :=
    { od with paid := orderPaid
              status := threeTierStatus orderPaid od.totalAmount }
  (⟨setOrder db.orders od', setInvoice db.invoices inv2⟩, inv2)

/-- Update an invoice: `router.put('/:id')` of `src/routes/invoices.js`.
404 if the invoice is absent; if the body reassigns `order` to a different
id, that order must exist (404 otherwise); the recomputation then loads the
original order by the captured `orderId` (a missing original order makes
the handler throw, modelled as `internalError`). -/
def updateInvoice (db : DB) (invId : Nat) (ch : UpdateFields) :
    Except Err (DB × Invoice) :=
  match db.invoices.find? (fun i => i.id == invId) with
  | none => Except.error Err.invoiceNotFound
  | some inv0 =>
    let resolved : Except Err Nat :=
      match ch.order with
      | some o =>
        if o == inv0.order then Except.ok inv0.order
        else match db.orders.find? (fun od => od.id == o) with
          | none => Except.error Err.orderNotFound
          | some _ => Except.ok o
      | none => Except.ok inv0.order
    match resolved with
    | Except.error e => Except.error e
    | Except.ok newOrderRef =>
      match db.orders.find? (fun od => od.id == inv0.order) with
      | none => Except.error Err.internalError
      | some od => Except.ok (updateCore db inv0 newOrderRef ch od)

/-- The delete handler's recomputation once the order document was found
(lines 442–464): `order.paid` becomes the sum of `paid` over the remaining
invoices of the order, every remaining invoice of the order gets
`remain = totalAmount − totalPaid` clamped to `0` when negative, and the
three-tier status rule is applied. -/
def deleteCore (db : DB) (invId oid : Nat) (od : Order) : DB :=
  let afterDelete := db.invoices.filter (fun i => i.id != invId)
  let totalPaid := sumPaid (invoicesFor afterDelete oid)
  let remain := od.totalAmount - totalPaid
  let clamped := if remain > 0 then remain else 0
  let od' : Order :=
    { od with paid := totalPaid
              status := threeTierStatus totalPaid od.totalAmount }
  ⟨setOrder db.orders od',
   afterDelete.map (fun i => if i.order == oid then { i with remain := clamped } else i)⟩

/-- Delete an invoice: `router.delete('/:id')` of `src/routes/invoices.js`.
404 if the invoice is absent; the invoice is removed, and when the
referenced order document exists the recomputation of `deleteCore` runs
(`if (orderDoc) { … }`, lines 443–465); when it does not, only the deletion
happens.  The deleted invoice snapshot is returned either way. -/
def deleteInvoice (db : DB) (invId : Nat) : Except Err (DB × Invoice) :=
  match db.invoices.find? (fun i => i.id == invId) with
  | none => Except.error Err.invoiceNotFound
  | some inv =>
    match db.orders.find? (fun o => o.id == inv.order) with
    | none =>
      Except.ok ({ db with invoices := db.invoices.filter (fun i => i.id != invId) }, inv)
    | some od => Except.ok (deleteCore db invId inv.order od, inv)

/-- The store state a request leaves behind: a handler that returns an error
does so before any of its persisting awaits (all three handlers validate
and look documents up first), so an error leaves the store as it was. -/
def stateAfter (db : DB) (r : Except Err (DB × Invoice)) : DB :=
  match r with
  | Except.ok (db', _) => db'
  | Except.error _ => db

/-- The store state observable if the create handler stops right after
`invoice.save()` persisted the new invoice (line 67) and the subsequent
`orderDoc.save()` (line 77) never ran — e.g. the process crashed or the
order save threw.  The two saves are sequential awaits with no transaction
around them, so this intermediate state is durable: the invoice insert is
committed while the order document still holds its pre-operation
`paid`/`status`. -/
def createInvoiceInterrupted (db : DB) (newId oid : Nat) (total paidInput : Rat) :
    Option DB :=
  match db.orders.find? (fun o => o.id == oid) with
  | none => none
  | some _ =>
    let totalPaid := sumPaid (invoicesFor db.invoices oid)
    let orderPaid := totalPaid + paidInput
    some { db with
            invoices := db.invoices ++ [⟨newId, oid, total, paidInput, total - orderPaid⟩] }

/-! ## The sequence counter

`src/models/Counter.js` stores one `{name, value}` document per sequence
name, `value` defaulting to `0`; the `pre('save')` hooks of Order and
Customer call `findOneAndUpdate({name}, {$inc: {value: 1}}, {new: true,
upsert: true})`, an atomic increment-and-read.  The counters collection is
modelled as the total map sending each name to its current value, absent
names standing at the schema default `0`. -/

/-- The counters collection: each sequence name's current value. -/
abbrev Counters := String → Nat

/-- A fresh counters collection: every name at the schema default `0`. -/
def counterInit : Counters := fun _ => 0

/-- Increment the named counter (creating it from the default if unseen) and
return the new value, as in `findOneAndUpdate({name}, {$inc: {value: 1}},
{new: true, upsert: true})`. -/
def counterNext (cs : Counters) (name : String) : Nat × Counters :=
  let v := cs name + 1
  (v, fun n => if n = name then v else cs n)

/-- The counters collection after `n` successive `counterNext name` calls. -/
def countersAfter (cs : Counters) (name : String) : Nat → Counters
  | 0 => cs
  | n + 1 => (counterNext (countersAfter cs name n) name).2

/-- The value returned by the `(n+1)`-st successive `counterNext name` call. -/
def counterCall (cs : Counters) (name : String) (n : Nat) : Nat :=
  (counterNext (countersAfter cs name n) name).1

/-! Concrete stores used to evaluate the handlers on the spec's scenarios:
an order of `totalAmount` 100 with no invoice yet; the same order after
CreateInvoice(total=100, paid=60) (scenario A); then after
CreateInvoice(total=40, paid=40) (scenario B, with the `remain` the create
handler actually stores); a pair of orphan invoices whose order id 7 has no
order document; and a two-order store for reassignment. -/

def scenarioOrderOnly : DB := ⟨[⟨1, 100, 0, Status.received⟩], []⟩

def afterScenarioA : DB := ⟨[⟨1, 100, 60, Status.completed⟩], [⟨1, 1, 100, 60, 40⟩]⟩

def afterScenarioB : DB :=
  ⟨[⟨1, 100, 100, Status.delivered⟩], [⟨1, 1, 100, 60, 40⟩, ⟨2, 1, 40, 40, -60⟩]⟩

def orphanInvoicesDB : DB := ⟨[], [⟨1, 7, 100, 60, 40⟩, ⟨2, 7, 40, 40, -60⟩]⟩

def twoOrdersDB : DB :=
  ⟨[⟨1, 100, 60, Status.completed⟩, ⟨2, 50, 0, Status.received⟩], [⟨1, 1, 100, 60, 40⟩]⟩

/-! Helper lemmas. -/

lemma id_of_find_order {orders : List Order} {oid : Nat} {od : Order}
    (h : orders.find? (fun o => o.id == oid) = some od) : od.id = oid := by
  have := List.find?_some h
  simpa using this

lemma id_of_find_invoice {invs : List Invoice} {invId : Nat} {inv : Invoice}
    (h : invs.find? (fun i => i.id == invId) = some inv) : inv.id = invId := by
  have := List.find?_some h
  simpa using this

lemma mem_setOrder_of_id {orders : List Order} {od : Order} :
    ∀ o ∈ setOrder orders od, o.id = od.id → o = od := by
  intro o ho hid
  rcases List.mem_map.mp ho with ⟨o0, _, he⟩
  by_cases h : o0.id = od.id
  · simpa [h] using he.symm
  · rw [if_neg (by simpa using h)] at he
    exact absurd (he ▸ hid) h

lemma mem_setOrder_of_ne {orders : List Order} {od : Order} :
    ∀ o ∈ setOrder orders od, o.id ≠ od.id → o ∈ orders := by
  intro o ho hid
  rcases List.mem_map.mp ho with ⟨o0, ho0, he⟩
  by_cases h : o0.id = od.id
  · rw [if_pos (by simpa using h)] at he
    exact absurd (he ▸ rfl) hid
  · rw [if_neg (by simpa using h)] at he
    exact he ▸ ho0

lemma invoicesFor_append (a b : List Invoice) (oid : Nat) :
    invoicesFor (a ++ b) oid = invoicesFor a oid ++ invoicesFor b oid := by
  simp [invoicesFor, List.filter_append]

lemma sumPaid_append (a b : List Invoice) :
    sumPaid (a ++ b) = sumPaid a + sumPaid b := by
  simp [sumPaid]

lemma createInvoice_eq_ok {db : DB} {newId oid : Nat} {total paidInput : Rat}
    {od : Order} (hfind : db.orders.find? (fun o => o.id == oid) = some od) :
    createInvoice db newId oid total paidInput =
      Except.ok (createCore db newId oid total paidInput od) := by
  unfold createInvoice
  rw [hfind]

lemma deleteInvoice_eq_ok {db : DB} {invId : Nat} {inv : Invoice} {od : Order}
    (hinv : db.invoices.find? (fun i => i.id == invId) = some inv)
    (hod : db.orders.find? (fun o => o.id == inv.order) = some od) :
    deleteInvoice db invId = Except.ok (deleteCore db invId inv.order od, inv) := by
  simp only [deleteInvoice, hinv, hod]

lemma deleteInvoice_eq_ok_no_order {db : DB} {invId : Nat} {inv : Invoice}
    (hinv : db.invoices.find? (fun i => i.id == invId) = some inv)
    (hod : db.orders.find? (fun o => o.id == inv.order) = none) :
    deleteInvoice db invId =
      Except.ok ({ db with invoices := db.invoices.filter (fun i => i.id != invId) }, inv) := by
  simp only [deleteInvoice, hinv, hod]

lemma updateInvoice_eq_ok_no_reassign {db : DB} {invId : Nat} {ch : UpdateFields}
    {inv0 : Invoice} {od : Order}
    (hinv : db.invoices.find? (fun i => i.id == invId) = some inv0)
    (hord : ch.order = none)
    (hod : db.orders.find? (fun o => o.id == inv0.order) = some od) :
    updateInvoice db invId ch = Except.ok (updateCore db inv0 inv0.order ch od) := by
  simp only [updateInvoice, hinv, hord, hod]

lemma updateInvoice_eq_ok_reassign {db : DB} {invId : Nat} {ch : UpdateFields}
    {inv0 : Invoice} {newOid : Nat} {newOrd od : Order}
    (hinv : db.invoices.find? (fun i => i.id == invId) = some inv0)
    (hord : ch.order = some newOid)
    (hne : (newOid == inv0.order) = false)
    (hnew : db.orders.find? (fun o => o.id == newOid) = some newOrd)
    (hod : db.orders.find? (fun o => o.id == inv0.order) = some od) :
    updateInvoice db invId ch = Except.ok (updateCore db inv0 newOid ch od) := by
  simp only [updateInvoice, hinv, hord, hne, hnew, hod, Bool.false_eq_true, if_false]

lemma invoicesFor_cons (a : Invoice) (t : List Invoice) (oid : Nat) :
    invoicesFor (a :: t) oid =
      if a.order == oid then a :: invoicesFor t oid else invoicesFor t oid := by
  simp [invoicesFor, List.filter_cons]

lemma sumPaid_cons (a : Invoice) (t : List Invoice) :
    sumPaid (a :: t) = a.paid + sumPaid t := by
  simp [sumPaid]

lemma sumPaid_invoicesFor_setRemain (l : List Invoice) (oid : Nat) (c : Rat) :
    sumPaid (invoicesFor
      (l.map (fun i => if i.order == oid then { i with remain := c } else i)) oid)
      = sumPaid (invoicesFor l oid) := by
  induction l with
  | nil => rfl
  | cons a t ih =>
    by_cases h : a.order = oid
    · simp [List.map_cons, invoicesFor_cons, sumPaid_cons, h]
      simpa using ih
    · simp [List.map_cons, invoicesFor_cons, sumPaid_cons, h]
      simpa using ih

lemma sumPaid_setInvoice (l : List Invoice) (inv0 inv2 : Invoice)
    (hnd : (l.map Invoice.id).Nodup)
    (hmem : inv0 ∈ l)
    (hid : inv2.id = inv0.id)
    (hord : inv2.order = inv0.order) :
    sumPaid (invoicesFor (setInvoice l inv2) inv0.order)
      = sumPaid (invoicesFor l inv0.order) - inv0.paid + inv2.paid := by
  induction l with
  | nil => exact absurd hmem (List.not_mem_nil inv0)
  | cons a t ih =>
    simp only [List.map_cons, List.nodup_cons] at hnd
    simp only [setInvoice, List.map_cons]
    by_cases ha : a.id = inv2.id
    · have haeq : a = inv0 := by
        rcases List.mem_cons.mp hmem with h0 | h0
        · exact h0.symm
        · exact absurd (List.mem_map.mpr ⟨inv0, h0, (ha.trans hid).symm⟩) hnd.1
      have htail : t.map (fun i => if i.id == inv2.id then inv2 else i) = t := by
        rw [List.map_congr_left (g := fun i => i), List.map_id']
        intro i hi
        have hne : i.id ≠ inv2.id := fun hc =>
          hnd.1 (ha ▸ hc ▸ List.mem_map.mpr ⟨i, hi, rfl⟩)
        simp [hne]
      subst haeq
      simp only [beq_iff_eq] at htail
      simp [invoicesFor_cons, sumPaid_cons, htail, ha, hord]
      ring
    · have hane : a ≠ inv0 := fun hc => ha (by rw [hc, hid])
      have hmem' : inv0 ∈ t := (List.mem_cons.mp hmem).resolve_left (fun hc => hane hc.symm)
      have ih' := ih hnd.2 hmem'
      rw [show setInvoice t inv2 = t.map (fun i => if i.id == inv2.id then inv2 else i) from rfl] at ih'
      simp only [beq_iff_eq] at ih'
      by_cases ho : a.order = inv0.order
      · simp [invoicesFor_cons, sumPaid_cons, ha, ho, ih']
        ring
      · simp [invoicesFor_cons, sumPaid_cons, ha, ho, ih']

lemma createCore_def (db : DB) (newId oid : Nat) (total paidInput : Rat) (od : Order) :
    createCore db newId oid total paidInput od =
      (⟨setOrder db.orders
          { od with
              paid := sumPaid (invoicesFor db.invoices oid) + paidInput
              status := createStatus (sumPaid (invoicesFor db.invoices oid) + paidInput)
                  od.totalAmount od.status },
        db.invoices ++ [⟨newId, oid, total, paidInput,
          total - (sumPaid (invoicesFor db.invoices oid) + paidInput)⟩]⟩,
       ⟨newId, oid, total, paidInput,
        total - (sumPaid (invoicesFor db.invoices oid) + paidInput)⟩) := rfl

lemma updateCore_def (db : DB) (inv0 : Invoice) (nref : Nat) (ch : UpdateFields)
    (od : Order) :
    updateCore db inv0 nref ch od =
      (⟨setOrder db.orders
          { od with
              paid := ch.total.getD inv0.total - inv0.remain - paidDifference inv0 ch
              status := threeTierStatus
                  (ch.total.getD inv0.total - inv0.remain - paidDifference inv0 ch)
                  od.totalAmount },
        setInvoice db.invoices
          ⟨inv0.id, nref, ch.total.getD inv0.total, ch.paid.getD inv0.paid,
           ch.total.getD inv0.total -
             (ch.total.getD inv0.total - inv0.remain - paidDifference inv0 ch)⟩⟩,
       ⟨inv0.id, nref, ch.total.getD inv0.total, ch.paid.getD inv0.paid,
        ch.total.getD inv0.total -
          (ch.total.getD inv0.total - inv0.remain - paidDifference inv0 ch)⟩) := rfl

lemma deleteCore_def (db : DB) (invId oid : Nat) (od : Order) :
    deleteCore db invId oid od =
      ⟨setOrder db.orders
         { od with
             paid := sumPaid (invoicesFor (db.invoices.filter (fun i => i.id != invId)) oid)
             status := threeTierStatus
                 (sumPaid (invoicesFor (db.invoices.filter (fun i => i.id != invId)) oid))
                 od.totalAmount },
       (db.invoices.filter (fun i => i.id != invId)).map
         (fun i => if i.order == oid then
            { i with remain :=
                if od.totalAmount -
                    sumPaid (invoicesFor (db.invoices.filter (fun i => i.id != invId)) oid) > 0
                then od.totalAmount -
                    sumPaid (invoicesFor (db.invoices.filter (fun i => i.id != invId)) oid)
                else 0 }
          else i)⟩ := rfl


/-- C1 (amended).  After CreateInvoice the affected order's `paid` equals
the sum of `paid` over the invoices now referencing it, and likewise after
DeleteInvoice; after an UpdateInvoice that changes only `paid`, the equality
holds provided the edited invoice's stored `total − remain` equals the
order's pre-operation invoice-paid sum (as for the sole invoice of an order
whose stored fields are consistent).  The unconditional claim is false on
the update path — see the counterexample. -/
theorem c1_paid_invariant_amended :
    (∀ db newId oid total paidInput db' inv,
      createInvoice db newId oid total paidInput = Except.ok (db', inv) →
      ∀ o ∈ db'.orders, o.id = oid →
        o.paid = sumPaid (invoicesFor db'.invoices oid)) ∧
    (∀ db invId db' inv,
      deleteInvoice db invId = Except.ok (db', inv) →
      ∀ o ∈ db'.orders, o.id = inv.order →
        o.paid = sumPaid (invoicesFor db'.invoices inv.order)) ∧
    (∀ db invId p inv0 db' inv',
      findInvoice db invId = some inv0 →
      (db.invoices.map Invoice.id).Nodup →
      inv0.total - inv0.remain = sumPaid (invoicesFor db.invoices inv0.order) →
      updateInvoice db invId ⟨none, none, some p⟩ = Except.ok (db', inv') →
      ∀ o ∈ db'.orders, o.id = inv0.order →
        o.paid = sumPaid (invoicesFor db'.invoices inv0.order)) := by
  refine ⟨?_, ?_, ?_⟩
  · intro db newId oid total paidInput db' inv h o ho hid
    cases hfind : db.orders.find? (fun o2 => o2.id == oid) with
    | none => simp [createInvoice, hfind] at h
    | some od =>
      rw [createInvoice_eq_ok hfind, createCore_def] at h
      injection h with h2
      obtain ⟨rfl, rfl⟩ := Prod.mk.inj h2
      have hoeq := mem_setOrder_of_id o ho (hid.trans (id_of_find_order hfind).symm)
      subst hoeq
      simp [invoicesFor_append, sumPaid_append, invoicesFor, sumPaid]
  · intro db invId db' inv h o ho hid
    cases hfindI : db.invoices.find? (fun i => i.id == invId) with
    | none => simp [deleteInvoice, hfindI] at h
    | some inv1 =>
      cases hfindO : db.orders.find? (fun o2 => o2.id == inv1.order) with
      | none =>
        rw [deleteInvoice_eq_ok_no_order hfindI hfindO] at h
        injection h with h2
        obtain ⟨rfl, rfl⟩ := Prod.mk.inj h2
        have := List.find?_eq_none.mp hfindO o ho
        simp [hid] at this
      | some od =>
        rw [deleteInvoice_eq_ok hfindI hfindO, deleteCore_def] at h
        injection h with h2
        obtain ⟨rfl, rfl⟩ := Prod.mk.inj h2
        have hoeq := mem_setOrder_of_id o ho (hid.trans (id_of_find_order hfindO).symm)
        subst hoeq
        rw [sumPaid_invoicesFor_setRemain]
  · intro db invId p inv0 db' inv' hfindI hnd hbase h
    have hfindI2 : db.invoices.find? (fun i => i.id == invId) = some inv0 := hfindI
    intro o ho hid
    cases hfindO : db.orders.find? (fun o2 => o2.id == inv0.order) with
    | none => simp [updateInvoice, hfindI2, hfindO] at h
    | some od =>
      rw [updateInvoice_eq_ok_no_reassign hfindI2 rfl hfindO, updateCore_def] at h
      injection h with h2
      obtain ⟨rfl, rfl⟩ := Prod.mk.inj h2
      have hoeq := mem_setOrder_of_id o ho (hid.trans (id_of_find_order hfindO).symm)
      subst hoeq
      have hrepl := sumPaid_setInvoice db.invoices inv0
        ⟨inv0.id, inv0.order,
         ((⟨none, none, some p⟩ : UpdateFields).total.getD inv0.total),
         ((⟨none, none, some p⟩ : UpdateFields).paid.getD inv0.paid),
         ((⟨none, none, some p⟩ : UpdateFields).total.getD inv0.total -
           ((⟨none, none, some p⟩ : UpdateFields).total.getD inv0.total - inv0.remain -
             paidDifference inv0 ⟨none, none, some p⟩))⟩
        hnd (List.mem_of_find?_eq_some hfindI2) rfl rfl
      rw [hrepl]
      simp [paidDifference]
      rw [hbase]
      ring

lemma updateInvoice_eq_ok_reassign_same {db : DB} {invId : Nat} {ch : UpdateFields}
    {inv0 : Invoice} {newOid : Nat} {od : Order}
    (hinv : db.invoices.find? (fun i => i.id == invId) = some inv0)
    (hord : ch.order = some newOid)
    (heq : (newOid == inv0.order) = true)
    (hod : db.orders.find? (fun o => o.id == inv0.order) = some od) :
    updateInvoice db invId ch = Except.ok (updateCore db inv0 inv0.order ch od) := by
  simp only [updateInvoice, hinv, hord, heq, if_true, hod]

lemma createInvoiceInterrupted_eq {db : DB} {newId oid : Nat} {total paidInput : Rat}
    {od : Order} (hfind : db.orders.find? (fun o => o.id == oid) = some od) :
    createInvoiceInterrupted db newId oid total paidInput =
      some { db with invoices := db.invoices ++
        [⟨newId, oid, total, paidInput,
          total - (sumPaid (invoicesFor db.invoices oid) + paidInput)⟩] } := by
  unfold createInvoiceInterrupted
  rw [hfind]

lemma remainUpdate_id (j : Invoice) (c : Rat) (oid : Nat) :
    (if j.order == oid then { j with remain := c } else j).id = j.id := by
  split <;> rfl

lemma remainUpdate_order (j : Invoice) (c : Rat) (oid : Nat) :
    (if j.order == oid then { j with remain := c } else j).order = j.order := by
  split <;> rfl

/-- C1 is false as stated: on the two-invoice order of scenario B, updating
the first invoice's `paid` from 60 to 70 stores `order.paid = 70`, while the
invoices of the order then carry `paid` 70 and 40, summing to 110. -/
theorem c1_counterexample :
    updateInvoice afterScenarioB 1 ⟨none, none, some 70⟩ =
      Except.ok (⟨[⟨1, 100, 70, Status.completed⟩],
          [⟨1, 1, 100, 70, 30⟩, ⟨2, 1, 40, 40, -60⟩]⟩,
        ⟨1, 1, 100, 70, 30⟩) ∧
    sumPaid (invoicesFor [⟨1, 1, 100, 70, 30⟩, ⟨2, 1, 40, 40, -60⟩] 1) = 110 ∧
    (70 : Rat) ≠ 110 := by
  refine ⟨?_, ?_, by norm_num⟩
  · rw [@updateInvoice_eq_ok_no_reassign afterScenarioB 1 ⟨none, none, some 70⟩
      ⟨1, 1, 100, 60, 40⟩ ⟨1, 100, 100, Status.delivered⟩ rfl rfl rfl, updateCore_def]
    norm_num [afterScenarioB, setOrder, setInvoice, paidDifference, threeTierStatus]
  · norm_num [sumPaid, invoicesFor]

/-- C1 witness: the create branch of the amended invariant, instantiated on
scenario A (CreateInvoice(total=100, paid=60) on a fresh 100-total order). -/
theorem c1_witness :
    createInvoice scenarioOrderOnly 1 1 100 60 =
      Except.ok (⟨[⟨1, 100, 60, Status.completed⟩], [⟨1, 1, 100, 60, 40⟩]⟩,
        ⟨1, 1, 100, 60, 40⟩) ∧
    (⟨1, 100, 60, Status.completed⟩ : Order).paid
      = sumPaid (invoicesFor [⟨1, 1, 100, 60, 40⟩] 1) := by
  have h : createInvoice scenarioOrderOnly 1 1 100 60 =
      Except.ok (⟨[⟨1, 100, 60, Status.completed⟩], [⟨1, 1, 100, 60, 40⟩]⟩,
        ⟨1, 1, 100, 60, 40⟩) := by
    rw [@createInvoice_eq_ok scenarioOrderOnly 1 1 100 60 ⟨1, 100, 0, Status.received⟩ rfl,
      createCore_def]
    norm_num [scenarioOrderOnly, sumPaid, invoicesFor, setOrder, createStatus]
  refine ⟨h, ?_⟩
  exact c1_paid_invariant_amended.1 scenarioOrderOnly 1 1 100 60 _ _ h
    ⟨1, 100, 60, Status.completed⟩ (by simp) rfl

/-- C2 (amended).  After UpdateInvoice and DeleteInvoice the affected
order's status follows the three-tier rule with its precedence (`delivered`
when `paid ≥ totalAmount`, else `completed` when `paid > 0`, else
`received`); after CreateInvoice the narrower two-tier, non-demoting create
rule applies instead (`delivered` when `paid ≥ totalAmount`, else a
`received` order is promoted to `completed`, any other status is kept).
The claim that one rule is applied identically on all three paths is false
— see the counterexample. -/
theorem c2_status_rule_amended :
    (∀ db invId ch inv0 db' inv',
      findInvoice db invId = some inv0 →
      updateInvoice db invId ch = Except.ok (db', inv') →
      ∀ o ∈ db'.orders, o.id = inv0.order →
        o.status = threeTierStatus o.paid o.totalAmount) ∧
    (∀ db invId db' inv,
      deleteInvoice db invId = Except.ok (db', inv) →
      ∀ o ∈ db'.orders, o.id = inv.order →
        o.status = threeTierStatus o.paid o.totalAmount) ∧
    (∀ db newId oid total paidInput od db' inv,
      findOrder db oid = some od →
      createInvoice db newId oid total paidInput = Except.ok (db', inv) →
      ∀ o ∈ db'.orders, o.id = oid →
        o.status = createStatus o.paid od.totalAmount od.status) := by
  refine ⟨?_, ?_, ?_⟩
  · intro db invId ch inv0 db' inv' hfindI h o ho hid
    have hfindI2 : db.invoices.find? (fun i => i.id == invId) = some inv0 := hfindI
    cases hfindO : db.orders.find? (fun o2 => o2.id == inv0.order) with
    | none =>
      cases hch : ch.order with
      | none => simp [updateInvoice, hfindI2, hch, hfindO] at h
      | some newOid =>
        cases hne : (newOid == inv0.order) with
        | true => simp [updateInvoice, hfindI2, hch, hne, hfindO] at h
        | false =>
          cases hnew : db.orders.find? (fun o2 => o2.id == newOid) with
          | none => simp [updateInvoice, hfindI2, hch, hne, hnew] at h
          | some newOrd => simp [updateInvoice, hfindI2, hch, hne, hnew, hfindO] at h
    | some od =>
      cases hch : ch.order with
      | none =>
        rw [updateInvoice_eq_ok_no_reassign hfindI2 hch hfindO, updateCore_def] at h
        injection h with h2
        obtain ⟨rfl, rfl⟩ := Prod.mk.inj h2
        have hoeq := mem_setOrder_of_id o ho (hid.trans (id_of_find_order hfindO).symm)
        subst hoeq
        rfl
      | some newOid =>
        cases hne : (newOid == inv0.order) with
        | true =>
          rw [updateInvoice_eq_ok_reassign_same hfindI2 hch hne hfindO, updateCore_def] at h
          injection h with h2
          obtain ⟨rfl, rfl⟩ := Prod.mk.inj h2
          have hoeq := mem_setOrder_of_id o ho (hid.trans (id_of_find_order hfindO).symm)
          subst hoeq
          rfl
        | false =>
          cases hnew : db.orders.find? (fun o2 => o2.id == newOid) with
          | none => simp [updateInvoice, hfindI2, hch, hne, hnew] at h
          | some newOrd =>
            rw [updateInvoice_eq_ok_reassign hfindI2 hch hne hnew hfindO, updateCore_def] at h
            injection h with h2
            obtain ⟨rfl, rfl⟩ := Prod.mk.inj h2
            have hoeq := mem_setOrder_of_id o ho (hid.trans (id_of_find_order hfindO).symm)
            subst hoeq
            rfl
  · intro db invId db' inv h o ho hid
    cases hfindI : db.invoices.find? (fun i => i.id == invId) with
    | none => simp [deleteInvoice, hfindI] at h
    | some inv1 =>
      cases hfindO : db.orders.find? (fun o2 => o2.id == inv1.order) with
      | none =>
        rw [deleteInvoice_eq_ok_no_order hfindI hfindO] at h
        injection h with h2
        obtain ⟨rfl, rfl⟩ := Prod.mk.inj h2
        have := List.find?_eq_none.mp hfindO o ho
        simp [hid] at this
      | some od =>
        rw [deleteInvoice_eq_ok hfindI hfindO, deleteCore_def] at h
        injection h with h2
        obtain ⟨rfl, rfl⟩ := Prod.mk.inj h2
        have hoeq := mem_setOrder_of_id o ho (hid.trans (id_of_find_order hfindO).symm)
        subst hoeq
        rfl
  · intro db newId oid total paidInput od db' inv hfind h o ho hid
    have hfind2 : db.orders.find? (fun o2 => o2.id == oid) = some od := hfind
    rw [createInvoice_eq_ok hfind2, createCore_def] at h
    injection h with h2
    obtain ⟨rfl, rfl⟩ := Prod.mk.inj h2
    have hoeq := mem_setOrder_of_id o ho (hid.trans (id_of_find_order hfind2).symm)
    subst hoeq
    rfl

/-- C2 is false as stated: creating an invoice with `paid = 0` on a
`received` order of `totalAmount` 100 leaves `order.paid = 0` yet sets the
status to `completed`, where the claimed rule requires `received`. -/
theorem c2_counterexample :
    createInvoice scenarioOrderOnly 1 1 100 0 =
      Except.ok (⟨[⟨1, 100, 0, Status.completed⟩], [⟨1, 1, 100, 0, 100⟩]⟩,
        ⟨1, 1, 100, 0, 100⟩) ∧
    (⟨1, 100, 0, Status.completed⟩ : Order).paid = 0 ∧
    (⟨1, 100, 0, Status.completed⟩ : Order).status ≠ Status.received := by
  refine ⟨?_, rfl, by simp⟩
  rw [@createInvoice_eq_ok scenarioOrderOnly 1 1 100 0 ⟨1, 100, 0, Status.received⟩ rfl,
    createCore_def]
  norm_num [scenarioOrderOnly, sumPaid, invoicesFor, setOrder, createStatus]

/-- C2 witness: the create branch of the amended status rule, instantiated
on scenario A. -/
theorem c2_witness :
    findOrder scenarioOrderOnly 1 = some ⟨1, 100, 0, Status.received⟩ ∧
    createInvoice scenarioOrderOnly 1 1 100 60 =
      Except.ok (⟨[⟨1, 100, 60, Status.completed⟩], [⟨1, 1, 100, 60, 40⟩]⟩,
        ⟨1, 1, 100, 60, 40⟩) ∧
    (⟨1, 100, 60, Status.completed⟩ : Order).status
      = createStatus (⟨1, 100, 60, Status.completed⟩ : Order).paid
          (⟨1, 100, 0, Status.received⟩ : Order).totalAmount
          (⟨1, 100, 0, Status.received⟩ : Order).status := by
  have h : createInvoice scenarioOrderOnly 1 1 100 60 =
      Except.ok (⟨[⟨1, 100, 60, Status.completed⟩], [⟨1, 1, 100, 60, 40⟩]⟩,
        ⟨1, 1, 100, 60, 40⟩) := by
    rw [@createInvoice_eq_ok scenarioOrderOnly 1 1 100 60 ⟨1, 100, 0, Status.received⟩ rfl,
      createCore_def]
    norm_num [scenarioOrderOnly, sumPaid, invoicesFor, setOrder, createStatus]
  refine ⟨rfl, h, ?_⟩
  exact c2_status_rule_amended.2.2 scenarioOrderOnly 1 1 100 60 ⟨1, 100, 0, Status.received⟩
    _ _ rfl h ⟨1, 100, 60, Status.completed⟩ (by simp) rfl

/-- C3.  The create handler persists the invoice and the order by two
sequential awaits with no transaction: the state reachable when execution
stops between `invoice.save()` and `orderDoc.save()` already contains the
new invoice while the order still has its pre-operation `paid`/`status`, so
it is neither the pre-operation store nor the state the completed operation
produces — the operation is not atomic. -/
theorem c3_sequential_saves_not_atomic :
    createInvoiceInterrupted scenarioOrderOnly 2 1 100 60 =
      some ⟨[⟨1, 100, 0, Status.received⟩], [⟨2, 1, 100, 60, 40⟩]⟩ ∧
    (⟨[⟨1, 100, 0, Status.received⟩], [⟨2, 1, 100, 60, 40⟩]⟩ : DB).orders
      = scenarioOrderOnly.orders ∧
    (⟨[⟨1, 100, 0, Status.received⟩], [⟨2, 1, 100, 60, 40⟩]⟩ : DB).invoices
      ≠ scenarioOrderOnly.invoices ∧
    createInvoice scenarioOrderOnly 2 1 100 60 =
      Except.ok (⟨[⟨1, 100, 60, Status.completed⟩], [⟨2, 1, 100, 60, 40⟩]⟩,
        ⟨2, 1, 100, 60, 40⟩) ∧
    (⟨[⟨1, 100, 0, Status.received⟩], [⟨2, 1, 100, 60, 40⟩]⟩ : DB).orders
      ≠ (⟨[⟨1, 100, 60, Status.completed⟩], [⟨2, 1, 100, 60, 40⟩]⟩ : DB).orders := by
  refine ⟨?_, rfl, by simp [scenarioOrderOnly], ?_, by norm_num⟩
  · rw [@createInvoiceInterrupted_eq scenarioOrderOnly 2 1 100 60
      ⟨1, 100, 0, Status.received⟩ rfl]
    norm_num [scenarioOrderOnly, sumPaid, invoicesFor]
  · rw [@createInvoice_eq_ok scenarioOrderOnly 2 1 100 60 ⟨1, 100, 0, Status.received⟩ rfl,
      createCore_def]
    norm_num [scenarioOrderOnly, sumPaid, invoicesFor, setOrder, createStatus]

/-- C4 is false as stated: in scenario B (CreateInvoice(total=40, paid=40)
on the 100-total order already holding a paid-60 invoice) the handler
persists the second invoice with `remain = 40 − 100 = −60`, a negative
value, not the claimed 0. -/
theorem c4_counterexample :
    createInvoice afterScenarioA 2 1 40 40 =
      Except.ok (⟨[⟨1, 100, 100, Status.delivered⟩],
          [⟨1, 1, 100, 60, 40⟩, ⟨2, 1, 40, 40, -60⟩]⟩,
        ⟨2, 1, 40, 40, -60⟩) ∧
    (⟨2, 1, 40, 40, -60⟩ : Invoice).remain < 0 ∧
    (⟨2, 1, 40, 40, -60⟩ : Invoice).remain ≠ 0 := by
  refine ⟨?_, by norm_num, by norm_num⟩
  rw [@createInvoice_eq_ok afterScenarioA 2 1 40 40 ⟨1, 100, 60, Status.completed⟩ rfl,
    createCore_def]
  norm_num [afterScenarioA, sumPaid, invoicesFor, setOrder, createStatus]

/-- C4 (amended).  Only the delete-triggered recompute clamps `remain`: a
successful DeleteInvoice leaves every remaining invoice of the order with a
non-negative `remain`, while CreateInvoice stores
`remain = total − (priorPaidSum + paid)` unclamped, which is negative
whenever the order's payments exceed the new invoice's own `total`. -/
theorem c4_remain_clamped_only_on_delete :
    (∀ db invId inv od db' invRet,
      db.invoices.find? (fun i => i.id == invId) = some inv →
      db.orders.find? (fun o => o.id == inv.order) = some od →
      deleteInvoice db invId = Except.ok (db', invRet) →
      ∀ i ∈ db'.invoices, i.order = inv.order → 0 ≤ i.remain) ∧
    (∀ db newId oid total paidInput db' inv,
      createInvoice db newId oid total paidInput = Except.ok (db', inv) →
      inv.remain = total - (sumPaid (invoicesFor db.invoices oid) + paidInput)) := by
  constructor
  · intro db invId inv od db' invRet hfindI hfindO h i hi hio
    rw [deleteInvoice_eq_ok hfindI hfindO, deleteCore_def] at h
    injection h with h2
    obtain ⟨rfl, rfl⟩ := Prod.mk.inj h2
    rcases List.mem_map.mp hi with ⟨j, hj, rfl⟩
    cases hjo : (j.order == inv.order) with
    | true =>
      simp only [hjo, if_true]
      split
      · linarith
      · exact le_refl 0
    | false =>
      rw [remainUpdate_order] at hio
      simp [hio] at hjo
  · intro db newId oid total paidInput db' inv h
    cases hfind : db.orders.find? (fun o2 => o2.id == oid) with
    | none => simp [createInvoice, hfind] at h
    | some od =>
      rw [createInvoice_eq_ok hfind, createCore_def] at h
      injection h with h2
      obtain ⟨rfl, rfl⟩ := Prod.mk.inj h2
      rfl

/-- C4 witness: the delete branch of the amended claim, instantiated on
scenario C (deleting the second invoice of scenario B). -/
theorem c4_witness :
    afterScenarioB.invoices.find? (fun i => i.id == 2) = some ⟨2, 1, 40, 40, -60⟩ ∧
    afterScenarioB.orders.find? (fun o => o.id == 1) = some ⟨1, 100, 100, Status.delivered⟩ ∧
    deleteInvoice afterScenarioB 2 =
      Except.ok (⟨[⟨1, 100, 60, Status.completed⟩], [⟨1, 1, 100, 60, 40⟩]⟩,
        ⟨2, 1, 40, 40, -60⟩) ∧
    (∀ i ∈ (⟨[⟨1, 100, 60, Status.completed⟩], [⟨1, 1, 100, 60, 40⟩]⟩ : DB).invoices,
      i.order = (⟨2, 1, 40, 40, -60⟩ : Invoice).order → 0 ≤ i.remain) := by
  have h : deleteInvoice afterScenarioB 2 =
      Except.ok (⟨[⟨1, 100, 60, Status.completed⟩], [⟨1, 1, 100, 60, 40⟩]⟩,
        ⟨2, 1, 40, 40, -60⟩) := by
    rw [@deleteInvoice_eq_ok afterScenarioB 2 ⟨2, 1, 40, 40, -60⟩
      ⟨1, 100, 100, Status.delivered⟩ rfl rfl, deleteCore_def]
    norm_num [afterScenarioB, sumPaid, invoicesFor, setOrder, threeTierStatus, List.filter]
    rfl
  refine ⟨rfl, rfl, h, ?_⟩
  exact c4_remain_clamped_only_on_delete.1 afterScenarioB 2 ⟨2, 1, 40, 40, -60⟩
    ⟨1, 100, 100, Status.delivered⟩ _ _ rfl rfl h

/-- C5.  For every UpdateInvoice whose field changes include `paid` (and do
not reassign the order), the engine sets `difference = oldPaid − newPaid`,
stores `order.paid = invoice.total − invoice.remain − difference` using the
invoice's stored `remain` from before the edit, then
`invoice.remain = invoice.total − order.paid`, and applies the three-tier
status rule. -/
theorem c5_update_paid_recompute :
    ∀ db invId ch p inv0 db' inv',
      findInvoice db invId = some inv0 →
      ch.order = none →
      ch.paid = some p →
      updateInvoice db invId ch = Except.ok (db', inv') →
      inv'.paid = p ∧
      inv'.total = ch.total.getD inv0.total ∧
      inv'.remain = ch.total.getD inv0.total -
        (ch.total.getD inv0.total - inv0.remain - (inv0.paid - p)) ∧
      (∀ o ∈ db'.orders, o.id = inv0.order →
        o.paid = ch.total.getD inv0.total - inv0.remain - (inv0.paid - p) ∧
        o.status = threeTierStatus o.paid o.totalAmount) := by
  intro db invId ch p inv0 db' inv' hfindI hord hpaid h
  have hfindI2 : db.invoices.find? (fun i => i.id == invId) = some inv0 := hfindI
  have hdiff : paidDifference inv0 ch = inv0.paid - p := by
    simp [paidDifference, hpaid]
  cases hfindO : db.orders.find? (fun o2 => o2.id == inv0.order) with
  | none => simp [updateInvoice, hfindI2, hord, hfindO] at h
  | some od =>
    rw [updateInvoice_eq_ok_no_reassign hfindI2 hord hfindO, updateCore_def] at h
    injection h with h2
    obtain ⟨rfl, rfl⟩ := Prod.mk.inj h2
    refine ⟨by simp [hpaid], rfl, by simp [hdiff], ?_⟩
    intro o ho hid
    have hoeq := mem_setOrder_of_id o ho (hid.trans (id_of_find_order hfindO).symm)
    subst hoeq
    exact ⟨by simp [hdiff], rfl⟩

/-- C5 witness: scenario D — changing `paid` from 60 to 80 on the sole
invoice of a 100-total order yields `order.paid = 80`,
`invoice.remain = 20` and status `completed`. -/
theorem c5_witness :
    findInvoice afterScenarioA 1 = some ⟨1, 1, 100, 60, 40⟩ ∧
    updateInvoice afterScenarioA 1 ⟨none, none, some 80⟩ =
      Except.ok (⟨[⟨1, 100, 80, Status.completed⟩], [⟨1, 1, 100, 80, 20⟩]⟩,
        ⟨1, 1, 100, 80, 20⟩) ∧
    (⟨1, 1, 100, 80, 20⟩ : Invoice).paid = 80 ∧
    (⟨1, 1, 100, 80, 20⟩ : Invoice).remain = 20 ∧
    (⟨1, 100, 80, Status.completed⟩ : Order).paid = 80 ∧
    (⟨1, 100, 80, Status.completed⟩ : Order).status = Status.completed := by
  have h : updateInvoice afterScenarioA 1 ⟨none, none, some 80⟩ =
      Except.ok (⟨[⟨1, 100, 80, Status.completed⟩], [⟨1, 1, 100, 80, 20⟩]⟩,
        ⟨1, 1, 100, 80, 20⟩) := by
    rw [@updateInvoice_eq_ok_no_reassign afterScenarioA 1 ⟨none, none, some 80⟩
      ⟨1, 1, 100, 60, 40⟩ ⟨1, 100, 60, Status.completed⟩ rfl rfl rfl, updateCore_def]
    norm_num [afterScenarioA, setOrder, setInvoice, paidDifference, threeTierStatus]
  have happ := c5_update_paid_recompute afterScenarioA 1 ⟨none, none, some 80⟩ 80
    ⟨1, 1, 100, 60, 40⟩ _ _ rfl rfl rfl h
  have horder := happ.2.2.2 ⟨1, 100, 80, Status.completed⟩ (by simp) rfl
  refine ⟨rfl, h, ?_, ?_, ?_, rfl⟩
  · rw [happ.1]
  · rw [happ.2.2.1]
    norm_num
  · rw [horder.1]
    norm_num

/-- C6.  DeleteInvoice of an existing invoice whose order exists removes
the invoice, recomputes `order.paid` as the sum of `paid` over the
remaining invoices of that order, applies the three-tier status rule, and
writes the single value `max(0, totalAmount − paidSum)` (expressed with the
source's `remain > 0` test) as the `remain` of every remaining invoice of
the order. -/
theorem c6_delete_recompute :
    ∀ db invId inv od db' invRet,
      db.invoices.find? (fun i => i.id == invId) = some inv →
      db.orders.find? (fun o => o.id == inv.order) = some od →
      deleteInvoice db invId = Except.ok (db', invRet) →
      invRet = inv ∧
      (∀ i ∈ db'.invoices, i.id ≠ invId) ∧
      (∀ o ∈ db'.orders, o.id = inv.order →
        o.paid = sumPaid (invoicesFor (db.invoices.filter (fun i => i.id != invId)) inv.order) ∧
        o.status = threeTierStatus o.paid o.totalAmount) ∧
      (∀ i ∈ db'.invoices, i.order = inv.order →
        i.remain = (if od.totalAmount - sumPaid (invoicesFor (db.invoices.filter
              (fun i2 => i2.id != invId)) inv.order) > 0
          then od.totalAmount - sumPaid (invoicesFor (db.invoices.filter
              (fun i2 => i2.id != invId)) inv.order)
          else 0)) := by
  intro db invId inv od db' invRet hfindI hfindO h
  rw [deleteInvoice_eq_ok hfindI hfindO, deleteCore_def] at h
  injection h with h2
  obtain ⟨rfl, rfl⟩ := Prod.mk.inj h2
  refine ⟨rfl, ?_, ?_, ?_⟩
  · intro i hi
    rcases List.mem_map.mp hi with ⟨j, hj, rfl⟩
    have hjid : (j.id != invId) = true := (List.mem_filter.mp hj).2
    rw [remainUpdate_id]
    intro hc
    simp [hc] at hjid
  · intro o ho hid
    have hoeq := mem_setOrder_of_id o ho (hid.trans (id_of_find_order hfindO).symm)
    subst hoeq
    exact ⟨rfl, rfl⟩
  · intro i hi hio
    rcases List.mem_map.mp hi with ⟨j, hj, rfl⟩
    cases hjo : (j.order == inv.order) with
    | true => simp [hjo]
    | false =>
      rw [remainUpdate_order] at hio
      simp [hio] at hjo

/-- C6 witness: scenario C — deleting the paid-40 invoice of the 100-total
order leaves `order.paid = 60`, the surviving invoice's `remain = 40` and
status `completed`. -/
theorem c6_witness :
    afterScenarioB.invoices.find? (fun i => i.id == 2) = some ⟨2, 1, 40, 40, -60⟩ ∧
    afterScenarioB.orders.find? (fun o => o.id == 1) = some ⟨1, 100, 100, Status.delivered⟩ ∧
    deleteInvoice afterScenarioB 2 =
      Except.ok (⟨[⟨1, 100, 60, Status.completed⟩], [⟨1, 1, 100, 60, 40⟩]⟩,
        ⟨2, 1, 40, 40, -60⟩) ∧
    (⟨1, 100, 60, Status.completed⟩ : Order).paid = 60 ∧
    (⟨1, 1, 100, 60, 40⟩ : Invoice).remain = 40 ∧
    (⟨1, 100, 60, Status.completed⟩ : Order).status = Status.completed := by
  have h : deleteInvoice afterScenarioB 2 =
      Except.ok (⟨[⟨1, 100, 60, Status.completed⟩], [⟨1, 1, 100, 60, 40⟩]⟩,
        ⟨2, 1, 40, 40, -60⟩) := by
    rw [@deleteInvoice_eq_ok afterScenarioB 2 ⟨2, 1, 40, 40, -60⟩
      ⟨1, 100, 100, Status.delivered⟩ rfl rfl, deleteCore_def]
    norm_num [afterScenarioB, sumPaid, invoicesFor, setOrder, threeTierStatus, List.filter]
    rfl
  have happ := c6_delete_recompute afterScenarioB 2 ⟨2, 1, 40, 40, -60⟩
    ⟨1, 100, 100, Status.delivered⟩ _ _ rfl rfl h
  have horder := happ.2.2.1 ⟨1, 100, 60, Status.completed⟩ (by simp) rfl
  refine ⟨rfl, rfl, h, ?_, rfl, rfl⟩
  rw [horder.1]
  norm_num [afterScenarioB, sumPaid, invoicesFor, List.filter]

/-- C7.  DeleteInvoice of an id that matches no invoice fails with
`invoiceNotFound` and leaves the store unchanged (the handler returns
before any persisting await). -/
theorem c7_delete_missing_invoice :
    ∀ db invId,
      db.invoices.find? (fun i => i.id == invId) = none →
      deleteInvoice db invId = Except.error Err.invoiceNotFound ∧
      stateAfter db (deleteInvoice db invId) = db := by
  intro db invId h
  have h1 : deleteInvoice db invId = Except.error Err.invoiceNotFound := by
    simp [deleteInvoice, h]
  exact ⟨h1, by rw [h1]; rfl⟩

/-- C7 witness: deleting the absent invoice id 99 from the scenario-A
store. -/
theorem c7_witness :
    afterScenarioA.invoices.find? (fun i => i.id == 99) = none ∧
    deleteInvoice afterScenarioA 99 = Except.error Err.invoiceNotFound ∧
    stateAfter afterScenarioA (deleteInvoice afterScenarioA 99) = afterScenarioA := by
  refine ⟨rfl, ?_, ?_⟩
  · exact (c7_delete_missing_invoice afterScenarioA 99 rfl).1
  · exact (c7_delete_missing_invoice afterScenarioA 99 rfl).2

lemma countersAfter_apply (cs : Counters) (name : String) :
    ∀ n, countersAfter cs name n name = cs name + n := by
  intro n
  induction n with
  | zero => rfl
  | succ k ih =>
    simp [countersAfter, counterNext, ih]
    omega

/-- C8.  Successive `next(name)` calls on the counter store return
`start + n + 1` on the `(n+1)`-st call, hence strictly increasing and
never-duplicated values, and the first call for a name still at the schema
default 0 returns 1. -/
theorem c8_counter_sequence :
    (∀ cs name n, counterCall cs name n = cs name + n + 1) ∧
    (∀ cs name m n, m < n → counterCall cs name m < counterCall cs name n) ∧
    (∀ name, counterCall counterInit name 0 = 1) := by
  have key : ∀ (cs : Counters) (name : String) (n : Nat),
      counterCall cs name n = cs name + n + 1 := by
    intro cs name n
    simp [counterCall, counterNext, countersAfter_apply]
  refine ⟨key, ?_, ?_⟩
  · intro cs name m n hmn
    rw [key, key]
    omega
  · intro name
    rw [key]
    rfl

/-- C8 witness: the first two calls for `order_code` on a fresh store
return 1 and then a strictly larger value. -/
theorem c8_witness :
    0 < 1 ∧
    counterCall counterInit "order_code" 0 < counterCall counterInit "order_code" 1 ∧
    counterCall counterInit "order_code" 0 = 1 :=
  ⟨by decide, c8_counter_sequence.2.1 counterInit "order_code" 0 1 (by decide),
   c8_counter_sequence.2.2 "order_code"⟩

/-- C9.  DeleteInvoice of an existing invoice whose referenced order has no
document still succeeds: the invoice is removed and returned, no error is
raised, and the orders collection and every other invoice (in particular
every sibling's `remain`) are untouched. -/
theorem c9_delete_with_missing_order :
    ∀ db invId inv,
      db.invoices.find? (fun i => i.id == invId) = some inv →
      db.orders.find? (fun o => o.id == inv.order) = none →
      deleteInvoice db invId =
        Except.ok ({ db with invoices := db.invoices.filter (fun i => i.id != invId) }, inv) := by
  intro db invId inv h1 h2
  exact deleteInvoice_eq_ok_no_order h1 h2

/-- C9 witness: deleting an orphan invoice whose order id 7 has no order
document. -/
theorem c9_witness :
    orphanInvoicesDB.invoices.find? (fun i => i.id == 2) = some ⟨2, 7, 40, 40, -60⟩ ∧
    orphanInvoicesDB.orders.find? (fun o => o.id == 7) = none ∧
    deleteInvoice orphanInvoicesDB 2 =
      Except.ok ({ orphanInvoicesDB with
        invoices := orphanInvoicesDB.invoices.filter (fun i => i.id != 2) }, ⟨2, 7, 40, 40, -60⟩) := by
  exact ⟨rfl, rfl, c9_delete_with_missing_order orphanInvoicesDB 2 ⟨2, 7, 40, 40, -60⟩ rfl rfl⟩

/-- C10.  When UpdateInvoice reassigns the invoice to a different existing
order, the paid/remain/status recomputation is applied to the order loaded
by the id captured before the reassignment: the invoice ends up referencing
the new order, every order with a different id than the original (the newly
referenced one included) is exactly as in the pre-state, and the original
order receives the recomputed `paid` and status. -/
theorem c10_update_reassign_frame :
    ∀ db invId ch inv0 newOid newOrd od db' inv',
      db.invoices.find? (fun i => i.id == invId) = some inv0 →
      ch.order = some newOid →
      (newOid == inv0.order) = false →
      db.orders.find? (fun o => o.id == newOid) = some newOrd →
      db.orders.find? (fun o => o.id == inv0.order) = some od →
      updateInvoice db invId ch = Except.ok (db', inv') →
      inv'.order = newOid ∧
      (∀ o ∈ db'.orders, o.id ≠ inv0.order → o ∈ db.orders) ∧
      (∀ o ∈ db'.orders, o.id = inv0.order →
        o = { od with
                paid := ch.total.getD inv0.total - inv0.remain - paidDifference inv0 ch
                status := threeTierStatus
                    (ch.total.getD inv0.total - inv0.remain - paidDifference inv0 ch)
                    od.totalAmount }) := by
  intro db invId ch inv0 newOid newOrd od db' inv' hfindI hch hne hnew hfindO h
  rw [updateInvoice_eq_ok_reassign hfindI hch hne hnew hfindO, updateCore_def] at h
  injection h with h2
  obtain ⟨rfl, rfl⟩ := Prod.mk.inj h2
  refine ⟨rfl, ?_, ?_⟩
  · intro o ho hne2
    refine mem_setOrder_of_ne o ho (fun hc => hne2 ?_)
    exact (show o.id = od.id from hc).trans (id_of_find_order hfindO)
  · intro o ho hid
    exact mem_setOrder_of_id o ho (hid.trans (id_of_find_order hfindO).symm)

/-- C10 witness: reassigning the sole invoice of order 1 to order 2 leaves
order 2 exactly as before while order 1 is recomputed. -/
theorem c10_witness :
    twoOrdersDB.invoices.find? (fun i => i.id == 1) = some ⟨1, 1, 100, 60, 40⟩ ∧
    ((2 : Nat) == (⟨1, 1, 100, 60, 40⟩ : Invoice).order) = false ∧
    twoOrdersDB.orders.find? (fun o => o.id == 2) = some ⟨2, 50, 0, Status.received⟩ ∧
    updateInvoice twoOrdersDB 1 ⟨some 2, none, none⟩ =
      Except.ok (⟨[⟨1, 100, 60, Status.completed⟩, ⟨2, 50, 0, Status.received⟩],
          [⟨1, 2, 100, 60, 40⟩]⟩, ⟨1, 2, 100, 60, 40⟩) ∧
    (⟨1, 2, 100, 60, 40⟩ : Invoice).order = 2 ∧
    (∀ o ∈ (⟨[⟨1, 100, 60, Status.completed⟩, ⟨2, 50, 0, Status.received⟩],
        [⟨1, 2, 100, 60, 40⟩]⟩ : DB).orders,
      o.id ≠ (⟨1, 1, 100, 60, 40⟩ : Invoice).order → o ∈ twoOrdersDB.orders) := by
  have h : updateInvoice twoOrdersDB 1 ⟨some 2, none, none⟩ =
      Except.ok (⟨[⟨1, 100, 60, Status.completed⟩, ⟨2, 50, 0, Status.received⟩],
          [⟨1, 2, 100, 60, 40⟩]⟩, ⟨1, 2, 100, 60, 40⟩) := by
    rw [@updateInvoice_eq_ok_reassign twoOrdersDB 1 ⟨some 2, none, none⟩
      ⟨1, 1, 100, 60, 40⟩ 2 ⟨2, 50, 0, Status.received⟩ ⟨1, 100, 60, Status.completed⟩
      rfl rfl rfl rfl rfl, updateCore_def]
    norm_num [twoOrdersDB, setOrder, setInvoice, paidDifference, threeTierStatus]
  have happ := c10_update_reassign_frame twoOrdersDB 1 ⟨some 2, none, none⟩
    ⟨1, 1, 100, 60, 40⟩ 2 ⟨2, 50, 0, Status.received⟩ ⟨1, 100, 60, Status.completed⟩
    _ _ rfl rfl rfl rfl rfl h
  exact ⟨rfl, rfl, rfl, h, happ.1, happ.2.1⟩
